import Mathlib

/-!
# API gateway: aggregation-and-conversion pipeline

A shallow embedding of `rpc.go` and `handlers.go`.

* Go pointers (`*pb.Money`, `*pb.Product`) are `Option` values; `none` is `nil`, and the
  generated getters return the zero value on `nil`.
* Every effect of a handler is recorded in a `World`: the backend RPCs issued, the log calls
  made and the calls made on the `http.ResponseWriter`, each oldest first.
* Everything the two source files use but do not define is a field of `Env`: the static
  configuration (`whitelistedCurrencies`, `cookieCurrency`, `defaultCurrency`), the two backend
  services, and the library behaviour the handlers observe.  A backend answers as a function
  of the calls issued before, so it may be stateful.
-/

namespace Apigw

/-! ## Data model -/

/-- Message `pb.Money`. -/
structure Money where
  currencyCode : String
  units : Int
  nanos : Int
deriving DecidableEq

/-- Message `pb.Product`. -/
structure Product where
  id : String
  name : String
  description : String
  picture : String
  priceUsd : Option Money
  categories : List String
deriving DecidableEq

/-- Getter `(*pb.Money).GetCurrencyCode`: the empty string on a nil receiver. -/
def GetCurrencyCode : Option Money → String
  | some m => m.currencyCode
  | none => ""

/-- Getter `(*pb.Product).GetPriceUsd`: nil on a nil receiver. -/
def GetPriceUsd : Option Product → Option Money
  | some p => p.priceUsd
  | none => none

/-- Getter `(*pb.Product).GetId`: the empty string on a nil receiver. -/
def GetId : Option Product → String
  | some p => p.id
  | none => ""

/-- A non-nil Go `error`.  `external` is an error made outside the handlers (a backend or a
write error), carrying the text `fmt` prints for it; `withStack` is the value built by
`errors.Wrap` and `errors.Wrapf`: the cause, the message, and the printed form of the stack
captured at the call. -/
inductive GoError where
  | external (text : String)
  | withStack (cause : GoError) (msg : String) (stack : String)
deriving DecidableEq

/-- The text `fmt.Sprintf("%+v", err)` of an error: for a wrapped error, the detail of the
cause, a newline, the message, then the stack. -/
def plusV : GoError → String
  | .external text => text
  | .withStack cause msg stack => plusV cause ++ "\n" ++ msg ++ stack

/-- Local type `productView` of `homeHandler`. -/
structure ProductView where
  Item : Option Product
  Price : Option Money
deriving DecidableEq

/-- Type `ErrorResponse`. -/
structure ErrorResponse where
  Error : String
  Message : String
deriving DecidableEq

/-- A value inside an encoded JSON object. -/
inductive JsonValue where
  | str (s : String)
  | bool (b : Bool)
  | strs (xs : List String)
  | views (vs : List ProductView)
deriving DecidableEq

/-- A JSON object: its keys with their values, in the order the encoder emits them. -/
abbrev JsonObject := List (String × JsonValue)

/-- Encoding of an `ErrorResponse`, under the keys of its struct tags. -/
def ErrorResponse.toJson (r : ErrorResponse) : JsonObject :=
  [("error", .str r.Error), ("message", .str r.Message)]

/-- A backend RPC. -/
inductive Call where
  | getSupportedCurrencies
  | listProducts
  | convert (src : Option Money) (toCode : String)
deriving DecidableEq

/-- Severity of a log call. -/
inductive Level where
  | info
  | error
deriving DecidableEq

/-- Value of a structured log field. -/
inductive FieldValue where
  | str (s : String)
  | err (e : GoError)
deriving DecidableEq

/-- One call `log.WithField(key, value).<Level>(msg)`. -/
structure LogEntry where
  level : Level
  key : String
  value : FieldValue
  msg : String
deriving DecidableEq

/-- A call made on the `http.ResponseWriter`. -/
inductive WriterOp where
  | writeHeader (code : Int)
  | headerSet (key : String) (value : String)
  | write (body : JsonObject)
deriving DecidableEq

/-- Effects accumulated while a request is handled, each list oldest first. -/
structure World where
  calls : List Call
  logs : List LogEntry
  resp : List WriterOp
deriving DecidableEq

/-- The inbound request: its cookies, name and value.  `homeHandler` opens with the type
assertion that the request context holds a logger; a `Request` is a request that meets it,
and the calls made on that logger are the `logs` component of the `World`. -/
structure Request where
  cookies : List (String × String)

/-- Everything the handlers depend on that the two source files do not define. -/
structure Env where
  /-- Keys of the map `whitelistedCurrencies`. -/
  whitelistedCurrencies : List String
  /-- Constant `cookieCurrency`. -/
  cookieCurrency : String
  /-- Constant `defaultCurrency`. -/
  defaultCurrency : String
  /-- Currency service, `GetSupportedCurrencies`, given the calls issued before. -/
  getSupportedCurrencies : List Call → Except GoError (List String)
  /-- Catalog service, `ListProducts`, given the calls issued before. -/
  listProducts : List Call → Except GoError (List (Option Product))
  /-- Currency service, `Convert`, given the calls issued before. -/
  convert : List Call → Option Money → String → Except GoError (Option Money)
  /-- Library function `http.StatusText`. -/
  statusText : Int → String
  /-- Printed form of the stack captured by `errors.Wrap` at a source line. -/
  stackAt : Nat → String
  /-- Result of `Write` on the response writer, given the calls made on it before. -/
  writeErr : List WriterOp → Option GoError
  /-- Value of `os.Getenv("BANNER_COLOR")`. -/
  bannerColor : String

/-! ## rpc.go -/

/-- Constant `avoidNoopCurrencyConversionRPC`. -/
def avoidNoopCurrencyConversionRPC : Bool := false

/-- Record a backend RPC. -/
def World.rpc (w : World) (c : Call) : World :=
  { w with calls := w.calls ++ [c] }

/-- Record a log call. -/
def World.logCall (w : World) (e : LogEntry) : World :=
  { w with logs := w.logs ++ [e] }

/-- Record a call on the response writer. -/
def World.respCall (w : World) (op : WriterOp) : World :=
  { w with resp := w.resp ++ [op] }

/-- Method `getCurrencies`: one `GetSupportedCurrencies` call, then the loop appending every
reported code that is a key of `whitelistedCurrencies`. -/
def getCurrencies (env : Env) (w : World) : Except GoError (List String) × World :=
  match env.getSupportedCurrencies w.calls with
  | .error err => (.error err, w.rpc .getSupportedCurrencies)
  | .ok currs =>
    (.ok (currs.foldl
      (fun out c => if c ∈ env.whitelistedCurrencies then out ++ [c] else out) []),
     w.rpc .getSupportedCurrencies)

/-- Method `getProducts`. -/
def getProducts (env : Env) (w : World) : Except GoError (List (Option Product)) × World :=
  match env.listProducts w.calls with
  | .error err => (.error err, w.rpc .listProducts)
  | .ok products => (.ok products, w.rpc .listProducts)

/-- Method `convertCurrency`, with the constant it tests as the parameter `flag`. -/
def convertCurrency (env : Env) (flag : Bool) (money : Option Money) (currency : String)
    (w : World) : Except GoError (Option Money) × World :=
  if flag && GetCurrencyCode money == currency then
    (.ok money, w)
  else
    (env.convert w.calls money currency, w.rpc (.convert money currency))

/-! ## handlers.go -/

/-- Function `currentCurrency`: the value of the first cookie named `cookieCurrency`, else
`defaultCurrency`. -/
def currentCurrency (env : Env) (r : Request) : String :=
  match r.cookies.find? (fun c => c.1 == env.cookieCurrency) with
  | some c => c.2
  | none => env.defaultCurrency

/-- `errors.Wrap(err, msg)` on a non-nil error, called at a source line. -/
def errorsWrap (env : Env) (line : Nat) (err : GoError) (msg : String) : GoError :=
  .withStack err msg (env.stackAt line)

/-- `json.NewEncoder(w).Encode(v)`: one `Write` of the encoded value, whose error is the
result. -/
def jsonEncode (env : Env) (body : JsonObject) (w : World) : Option GoError × World :=
  (env.writeErr w.resp, w.respCall (.write body))

/-- Constant `http.StatusInternalServerError`. -/
def StatusInternalServerError : Int := 500

/-- Check `checkWriteHeaderCode` of `net/http`: `WriteHeader` accepts a three-digit code
and panics on any other. -/
def validStatusCode (code : Int) : Bool :=
  decide (100 ≤ code) && decide (code ≤ 999)

/-- Function `renderHTTPError`.  On a code that `WriteHeader` refuses the call panics and
the function ends there: the log entry and the `WriteHeader` call are made, the header is
not set and no body is written. -/
def renderHTTPError (env : Env) (err : GoError) (code : Int) (w : World) : World :=
  let w := w.logCall ⟨.error, "error", .err err, "request error"⟩
  let errMsg := plusV err
  let w := w.respCall (.writeHeader code)
  if validStatusCode code then
    let w := w.respCall (.headerSet "Content-Type" "application/json")
    let response : ErrorResponse := { Error := env.statusText code, Message := errMsg }
    (jsonEncode env response.toJson w).2
  else
    w

/-- The loop of `homeHandler` over the products from index `i` on, with the slice `ps` built
so far: `none` when a conversion failed, the error was rendered and the handler returned. -/
def convertLoop (env : Env) (r : Request) :
    List (Option Product) → Nat → List ProductView → World → Option (List ProductView) × World
  | [], _, ps, w => (some ps, w)
  | p :: rest, i, ps, w =>
    match convertCurrency env avoidNoopCurrencyConversionRPC (GetPriceUsd p)
        (currentCurrency env r) w with
    | (.error err, w) =>
      (none, renderHTTPError env
        (errorsWrap env 72 err ("failed to do currency conversion for product " ++ GetId p))
        StatusInternalServerError w)
    | (.ok price, w) =>
      convertLoop env r rest (i + 1) (ps.set i { Item := p, Price := price }) w

/-- The map `data` of `homeHandler`, keys in the sorted order the encoder emits. -/
def homeData (env : Env) (currencies : List String) (ps : List ProductView) : JsonObject :=
  [("banner_color", .str env.bannerColor),
   ("currencies", .strs currencies),
   ("products", .views ps),
   ("show_currency", .bool true)]

/-- Method `homeHandler`. -/
def homeHandler (env : Env) (r : Request) (w : World) : World :=
  let w := w.logCall ⟨.info, "currency", .str (currentCurrency env r), "home"⟩
  match getCurrencies env w with
  | (.error err, w) =>
    renderHTTPError env (errorsWrap env 54 err "could not retrieve currencies")
      StatusInternalServerError w
  | (.ok currencies, w) =>
    match getProducts env w with
    | (.error err, w) =>
      renderHTTPError env (errorsWrap env 59 err "could not retrieve products")
        StatusInternalServerError w
    | (.ok products, w) =>
      match convertLoop env r products 0
          (List.replicate products.length { Item := none, Price := none }) w with
      | (none, w) => w
      | (some ps, w) =>
        let data := homeData env currencies ps
        let w := w.respCall (.headerSet "Content-Type" "application/json")
        match jsonEncode env data w with
        | (some err, w) =>
          renderHTTPError env (errorsWrap env 92 err "could not render data")
            StatusInternalServerError w
        | (none, w) => w

/-- Decimal form of an integer, as `%d` prints it. -/
def fmtD (n : Int) : String :=
  if n < 0 then "-" ++ Nat.repr n.natAbs else Nat.repr n.natAbs

/-- Form of an integer under `%02d`: zero-padded to width two, the sign counted in the
width. -/
def fmt02d (n : Int) : String :=
  let digits := Nat.repr n.natAbs
  if n < 0 then
    "-" ++ String.mk (List.replicate (1 - digits.length) (Char.ofNat 48)) ++ digits
  else
    String.mk (List.replicate (2 - digits.length) (Char.ofNat 48)) ++ digits

/-- Function `renderCurrencyLogo`. -/
def renderCurrencyLogo (currencyCode : String) : String :=
  let logos : List (String × String) :=
    [("USD", "$"), ("CAD", "$"), ("JPY", "¥"), ("EUR", "€"), ("TRY", "₺"), ("GBP", "£")]
  match logos.lookup currencyCode with
  | some val => val
  | none => "$"

/-- Function `renderMoney`; Go integer division truncates toward zero. -/
def renderMoney (money : Money) : String :=
  let currencyLogo := renderCurrencyLogo money.currencyCode
  currencyLogo ++ fmtD money.units ++ "." ++ fmt02d (money.nanos.tdiv 10000000)

/-! ## Vocabulary of the specification -/

/-- The text `t` occurs inside the text `s`. -/
def Contains (s t : String) : Prop :=
  ∃ pre post, s = pre ++ t ++ post

/-- The texts an error carries: the message of every wrapping layer, outermost first, then
the text of the innermost cause. -/
def causeChain : GoError → List String
  | .external text => [text]
  | .withStack cause msg _ => msg :: causeChain cause

/-- The decimal digit `d` as a character. -/
def digitChar (d : Nat) : Char :=
  Char.ofNat (48 + d)

/-- The conversion call `homeHandler` issues for a product. -/
def convCall (cur : String) (p : Option Product) : Call :=
  .convert (GetPriceUsd p) cur

/-- The answers of the conversion backend when the products are converted one at a time in
catalog order, into `cur`, after the calls `t`. -/
def convResults (env : Env) (cur : String) :
    List Call → List (Option Product) → List (Except GoError (Option Money))
  | _, [] => []
  | t, p :: rest =>
    env.convert t (GetPriceUsd p) cur :: convResults env cur (t ++ [convCall cur p]) rest

/-- The backend answers the call `c`, issued after the calls `t`, with an error. -/
def callFails (env : Env) (t : List Call) : Call → Bool
  | .getSupportedCurrencies =>
    match env.getSupportedCurrencies t with
    | .error _ => true
    | .ok _ => false
  | .listProducts =>
    match env.listProducts t with
    | .error _ => true
    | .ok _ => false
  | .convert src toCode =>
    match env.convert t src toCode with
    | .error _ => true
    | .ok _ => false

/-- Conversion calls, one per product in catalog order, up to and including the first one
that fails. -/
def convCallsUntilFailure (env : Env) (cur : String) :
    List Call → List (Option Product) → List Call
  | _, [] => []
  | t, p :: rest =>
    match env.convert t (GetPriceUsd p) cur with
    | .error _ => [convCall cur p]
    | .ok _ => convCall cur p :: convCallsUntilFailure env cur (t ++ [convCall cur p]) rest

/-- The sequential fail-fast trace of the specification: the currency-list call, then the
catalog call, then the conversion calls, stopping at the first call that fails. -/
def sequentialTrace (env : Env) (cur : String) (t : List Call) : List Call :=
  match env.getSupportedCurrencies t with
  | .error _ => [.getSupportedCurrencies]
  | .ok _ =>
    match env.listProducts (t ++ [.getSupportedCurrencies]) with
    | .error _ => [.getSupportedCurrencies, .listProducts]
    | .ok products =>
      [.getSupportedCurrencies, .listProducts] ++
        convCallsUntilFailure env cur (t ++ [.getSupportedCurrencies, .listProducts]) products

/-- The whole chain of calls of a request in which no call fails. -/
def fullChain (env : Env) (cur : String) (t : List Call) : List Call :=
  match env.listProducts (t ++ [.getSupportedCurrencies]) with
  | .error _ => [.getSupportedCurrencies, .listProducts]
  | .ok products => [.getSupportedCurrencies, .listProducts] ++ products.map (convCall cur)

/-- Every call of `delta`, issued after `t`, that has a call after it is answered without
error. -/
def okButLast (env : Env) (t delta : List Call) : Prop :=
  ∀ pre c post, delta = pre ++ c :: post → post ≠ [] → callFails env (t ++ pre) c = false

/-- `Header().Set(key, value)` on a header map. -/
def setHeader (h : List (String × String)) (key value : String) : List (String × String) :=
  (key, value) :: h.filter (fun e => e.1 != key)

/-- The header map of a response writer after the calls `ops`. -/
def headerMap (ops : List WriterOp) : List (String × String) :=
  ops.foldl (fun h op =>
    match op with
    | .headerSet key value => setHeader h key value
    | _ => h) []

/-- Contract of `http.ResponseWriter`: the first `WriteHeader` with a three-digit code, or
the first `Write` (with status 200), commits the status and the header map as it is at that
moment; a `WriteHeader` with any other code panics and commits nothing.  From the header
map `h`, the status and header committed by `ops`. -/
def committedFrom (h : List (String × String)) : List WriterOp → Option (Int × List (String × String))
  | [] => none
  | .writeHeader code :: ops =>
    if validStatusCode code then some (code, h) else committedFrom h ops
  | .write _ :: _ => some (200, h)
  | .headerSet key value :: ops => committedFrom (setHeader h key value) ops

/-- The status and header committed by the calls `ops` on a response writer. -/
def committed (ops : List WriterOp) : Option (Int × List (String × String)) :=
  committedFrom [] ops

/-- The product views written in the bodies of `ops`. -/
def emittedViews (ops : List WriterOp) : List ProductView :=
  ops.flatMap (fun op =>
    match op with
    | .write body => body.flatMap (fun kv =>
        match kv.2 with
        | .views vs => vs
        | _ => [])
    | _ => [])

/-- The bodies written by `ops`. -/
def writtenBodies (ops : List WriterOp) : List JsonObject :=
  ops.filterMap (fun op =>
    match op with
    | .write body => some body
    | _ => none)

/-! ## Sample requests and backends -/

/-- A product priced in USD. -/
def mug : Product :=
  { id := "MUG1", name := "Mug", description := "", picture := "",
    priceUsd := some { currencyCode := "USD", units := 8, nanos := 990000000 },
    categories := ["kitchen"] }

/-- Another product priced in USD. -/
def lamp : Product :=
  { id := "LAMP2", name := "Lamp", description := "", picture := "",
    priceUsd := some { currencyCode := "USD", units := 19, nanos := 990000000 },
    categories := [] }

/-- The fixed EUR amount of the sample converter. -/
def fixedEur : Money :=
  { currencyCode := "EUR", units := 17, nanos := 500000000 }

/-- A healthy backend: two USD products and a converter that returns a fixed EUR amount. -/
def okEnv : Env :=
  { whitelistedCurrencies := ["USD", "EUR", "CAD", "JPY", "GBP", "TRY"]
    cookieCurrency := "shop_currency"
    defaultCurrency := "USD"
    getSupportedCurrencies := fun _ => .ok ["EUR", "XXX", "USD", "EUR"]
    listProducts := fun _ => .ok [some mug, some lamp]
    convert := fun _ _ _ => .ok (some fixedEur)
    statusText := fun code => if code = 500 then "Internal Server Error" else ""
    stackAt := fun _ => ""
    writeErr := fun _ => none
    bannerColor := "" }

/-- A backend whose currency-list call fails. -/
def noCurrenciesEnv : Env :=
  { okEnv with getSupportedCurrencies := fun _ => .error (.external "currency service down") }

/-- A backend whose conversion fails for the price of the lamp, the second product. -/
def badLampEnv : Env :=
  { okEnv with
    convert := fun _ src _ =>
      if src = lamp.priceUsd then .error (.external "unsupported currency")
      else .ok (some fixedEur) }

/-- The backend of `badLampEnv` with a third product after the lamp. -/
def threeProductsEnv : Env :=
  { badLampEnv with listProducts := fun _ => .ok [some mug, some lamp, some mug] }

/-- A backend whose conversion service is unavailable. -/
def noConversionEnv : Env :=
  { okEnv with convert := fun _ _ _ => .error (.external "currency service unavailable") }

/-- A backend whose converter returns a Money unchanged when it already has the target
code. -/
def sameCodeEnv : Env :=
  { okEnv with
    convert := fun _ src toCode =>
      if GetCurrencyCode src = toCode then .ok src else .ok (some fixedEur) }

/-- A request whose currency cookie selects EUR. -/
def eurRequest : Request :=
  { cookies := [("shop_currency", "EUR")] }

/-- The state before any effect. -/
def World.empty : World :=
  { calls := [], logs := [], resp := [] }

/-! ## Lemmas -/

theorem foldl_keep_eq_filter (A : List String) (S acc : List String) :
    S.foldl (fun out c => if c ∈ A then out ++ [c] else out) acc
      = acc ++ S.filter (fun c => decide (c ∈ A)) := by
  induction S generalizing acc with
  | nil => simp
  | cons c rest ih =>
    by_cases hc : c ∈ A
    · simp [List.foldl_cons, ih, hc]
    · simp [List.foldl_cons, ih, hc]

theorem contains_causeChain (err : GoError) :
    ∀ s, s ∈ causeChain err → Contains (plusV err) s := by
  induction err with
  | external text =>
    intro s hs
    simp only [causeChain, List.mem_singleton] at hs
    subst hs
    exact ⟨"", "", by simp [plusV]⟩
  | withStack cause msg stack ih =>
    intro s hs
    simp only [causeChain, List.mem_cons] at hs
    rcases hs with rfl | hs
    · exact ⟨plusV cause ++ "\n", stack, by simp [plusV, String.append_assoc]⟩
    · obtain ⟨pre, post, h⟩ := ih s hs
      refine ⟨pre, post ++ ("\n" ++ msg ++ stack), ?_⟩
      simp only [plusV, h, String.append_assoc]

theorem fmt02d_two_digits (q : Fin 100) :
    fmt02d (q.val : Int) = String.mk [digitChar (q.val / 10), digitChar (q.val % 10)] := by
  revert q
  decide

theorem convertCurrency_built (env : Env) (m : Option Money) (c : String) (w : World) :
    convertCurrency env avoidNoopCurrencyConversionRPC m c w =
      (env.convert w.calls m c, w.rpc (.convert m c)) := by
  simp [convertCurrency, avoidNoopCurrencyConversionRPC]

theorem validStatusCode_of_bounds (code : Int) (hlo : 100 ≤ code) (hhi : code ≤ 999) :
    validStatusCode code = true := by
  simp [validStatusCode, hlo, hhi]

theorem renderHTTPError_eq (env : Env) (err : GoError) (code : Int) (w : World)
    (hcode : validStatusCode code = true) :
    renderHTTPError env err code w =
      { calls := w.calls
        logs := w.logs ++ [{ level := .error, key := "error", value := .err err,
                             msg := "request error" }]
        resp := w.resp ++ [.writeHeader code,
                           .headerSet "Content-Type" "application/json",
                           .write [("error", .str (env.statusText code)),
                                   ("message", .str (plusV err))]] } := by
  simp [renderHTTPError, jsonEncode, World.logCall, World.respCall, ErrorResponse.toJson, hcode]

theorem renderHTTPError_refused (env : Env) (err : GoError) (code : Int) (w : World)
    (hcode : validStatusCode code = false) :
    renderHTTPError env err code w =
      { calls := w.calls
        logs := w.logs ++ [{ level := .error, key := "error", value := .err err,
                             msg := "request error" }]
        resp := w.resp ++ [.writeHeader code] } := by
  simp [renderHTTPError, World.logCall, World.respCall, hcode]

theorem renderHTTPError_eq_500 (env : Env) (err : GoError) (w : World) :
    renderHTTPError env err StatusInternalServerError w =
      { calls := w.calls
        logs := w.logs ++ [{ level := .error, key := "error", value := .err err,
                             msg := "request error" }]
        resp := w.resp ++ [.writeHeader StatusInternalServerError,
                           .headerSet "Content-Type" "application/json",
                           .write [("error", .str (env.statusText StatusInternalServerError)),
                                   ("message", .str (plusV err))]] } :=
  renderHTTPError_eq env err StatusInternalServerError w (by decide)

theorem convResults_length (env : Env) (cur : String) (P : List (Option Product)) :
    ∀ t, (convResults env cur t P).length = P.length := by
  induction P with
  | nil => intro t; rfl
  | cons p rest ih => intro t; simp [convResults, ih]

/-- The `i`-th answer of `convResults` is the answer of the backend for the price of the
`i`-th product, asked after the conversion calls of the products before it. -/
theorem convResults_getElem (env : Env) (cur : String) (P : List (Option Product)) :
    ∀ (t : List Call) (i : Nat) (p : Option Product), P[i]? = some p →
      (convResults env cur t P)[i]? =
        some (env.convert (t ++ (P.take i).map (convCall cur)) (GetPriceUsd p) cur) := by
  induction P with
  | nil => intro t i p h; simp at h
  | cons q rest ih =>
    intro t i p h
    cases i with
    | zero =>
      simp only [List.getElem?_cons_zero, Option.some.injEq] at h
      subst h
      simp [convResults]
    | succ j =>
      simp only [List.getElem?_cons_succ] at h
      simp [convResults, ih (t ++ [convCall cur q]) j p h]

theorem results_split {ε α : Type} (rs : List (Except ε α)) :
    (∃ oks : List α, rs = oks.map Except.ok) ∨
    (∃ (oks : List α) (e : ε) (more : List (Except ε α)),
      rs = oks.map Except.ok ++ Except.error e :: more) := by
  induction rs with
  | nil => exact Or.inl ⟨[], rfl⟩
  | cons x rest ih =>
    cases x with
    | error e => exact Or.inr ⟨[], e, rest, rfl⟩
    | ok a =>
      rcases ih with ⟨oks, h⟩ | ⟨oks, e, more, h⟩
      · exact Or.inl ⟨a :: oks, by simp [h]⟩
      · exact Or.inr ⟨a :: oks, e, more, by simp [h]⟩

theorem convertLoop_ok (env : Env) (r : Request) (L : List (Option Product)) :
    ∀ (done : List ProductView) (w : World) (prices : List (Option Money)),
      convResults env (currentCurrency env r) w.calls L = prices.map Except.ok →
      convertLoop env r L done.length
          (done ++ List.replicate L.length { Item := none, Price := none }) w =
        (some (done ++ List.zipWith ProductView.mk L prices),
         { calls := w.calls ++ L.map (convCall (currentCurrency env r))
           logs := w.logs, resp := w.resp }) := by
  induction L with
  | nil =>
    intro done w prices _
    simp [convertLoop]
  | cons p rest ih =>
    intro done w prices h
    cases prices with
    | nil => simp [convResults] at h
    | cons m prices =>
      simp only [convResults, List.map_cons, List.cons.injEq] at h
      obtain ⟨h1, h2⟩ := h
      have hset : (done ++ List.replicate (p :: rest).length
            ({ Item := none, Price := none } : ProductView)).set done.length
              { Item := p, Price := m } =
          (done ++ [{ Item := p, Price := m }]) ++
            List.replicate rest.length { Item := none, Price := none } := by
        simp [List.replicate_succ, List.set_append_right]
      have hlen : done.length + 1 = (done ++ [({ Item := p, Price := m } : ProductView)]).length := by
        simp
      rw [convertLoop, convertCurrency_built, h1]
      simp only
      have hrest := ih (done ++ [{ Item := p, Price := m }])
        (w.rpc (.convert (GetPriceUsd p) (currentCurrency env r))) prices
        (by simpa [World.rpc, convCall] using h2)
      rw [hset, hlen, hrest]
      simp [World.rpc, convCall]

theorem convertLoop_fail (env : Env) (r : Request) (L : List (Option Product)) :
    ∀ (i : Nat) (ps : List ProductView) (w : World) (oks : List (Option Money)) (e : GoError)
      (more : List (Except GoError (Option Money))),
      convResults env (currentCurrency env r) w.calls L =
        oks.map Except.ok ++ Except.error e :: more →
      convertLoop env r L i ps w =
        (none, renderHTTPError env
          (errorsWrap env 72 e
            ("failed to do currency conversion for product " ++ GetId (L.getD oks.length none)))
          StatusInternalServerError
          { calls := w.calls ++ (L.take (oks.length + 1)).map (convCall (currentCurrency env r))
            logs := w.logs, resp := w.resp }) := by
  induction L with
  | nil =>
    intro i ps w oks e more h
    simp [convResults] at h
  | cons p rest ih =>
    intro i ps w oks e more h
    cases oks with
    | nil =>
      simp only [convResults, List.map_nil, List.nil_append, List.cons.injEq] at h
      rw [convertLoop, convertCurrency_built, h.1]
      simp [World.rpc, convCall]
    | cons m oks =>
      simp only [convResults, List.map_cons, List.cons_append, List.cons.injEq] at h
      obtain ⟨h1, h2⟩ := h
      rw [convertLoop, convertCurrency_built, h1]
      simp only
      have hrest := ih (i + 1) (ps.set i { Item := p, Price := m })
        (w.rpc (.convert (GetPriceUsd p) (currentCurrency env r))) oks e more
        (by simpa [World.rpc, convCall] using h2)
      rw [hrest]
      simp [World.rpc, convCall]

theorem convertLoop_calls (env : Env) (r : Request) (L : List (Option Product)) :
    ∀ (i : Nat) (ps : List ProductView) (w : World),
      (convertLoop env r L i ps w).2.calls =
        w.calls ++ convCallsUntilFailure env (currentCurrency env r) w.calls L := by
  induction L with
  | nil =>
    intro i ps w
    simp [convertLoop, convCallsUntilFailure]
  | cons p rest ih =>
    intro i ps w
    rw [convertLoop, convertCurrency_built, convCallsUntilFailure]
    cases h : env.convert w.calls (GetPriceUsd p) (currentCurrency env r) with
    | error e => simp [renderHTTPError_eq_500, World.rpc, convCall]
    | ok m => simp [ih, World.rpc, convCall]

theorem homeHandler_currencies_fail (env : Env) (r : Request) (w : World) (e : GoError)
    (hS : env.getSupportedCurrencies w.calls = .error e) :
    homeHandler env r w =
      renderHTTPError env (errorsWrap env 54 e "could not retrieve currencies")
        StatusInternalServerError
        { calls := w.calls ++ [.getSupportedCurrencies]
          logs := w.logs ++ [{ level := .info, key := "currency",
                               value := .str (currentCurrency env r), msg := "home" }]
          resp := w.resp } := by
  simp [homeHandler, getCurrencies, World.logCall, World.rpc, hS]

theorem homeHandler_products_fail (env : Env) (r : Request) (w : World) (S : List String)
    (e : GoError) (hS : env.getSupportedCurrencies w.calls = .ok S)
    (hP : env.listProducts (w.calls ++ [.getSupportedCurrencies]) = .error e) :
    homeHandler env r w =
      renderHTTPError env (errorsWrap env 59 e "could not retrieve products")
        StatusInternalServerError
        { calls := w.calls ++ [.getSupportedCurrencies, .listProducts]
          logs := w.logs ++ [{ level := .info, key := "currency",
                               value := .str (currentCurrency env r), msg := "home" }]
          resp := w.resp } := by
  simp [homeHandler, getCurrencies, getProducts, World.logCall, World.rpc, hS, hP]

theorem homeHandler_conversion_fail (env : Env) (r : Request) (w : World) (S : List String)
    (P : List (Option Product)) (oks : List (Option Money)) (e : GoError)
    (more : List (Except GoError (Option Money)))
    (hS : env.getSupportedCurrencies w.calls = .ok S)
    (hP : env.listProducts (w.calls ++ [.getSupportedCurrencies]) = .ok P)
    (hconv : convResults env (currentCurrency env r)
      (w.calls ++ [.getSupportedCurrencies, .listProducts]) P =
        oks.map Except.ok ++ Except.error e :: more) :
    homeHandler env r w =
      renderHTTPError env
        (errorsWrap env 72 e
          ("failed to do currency conversion for product " ++ GetId (P.getD oks.length none)))
        StatusInternalServerError
        { calls := w.calls ++ [.getSupportedCurrencies, .listProducts] ++
            (P.take (oks.length + 1)).map (convCall (currentCurrency env r))
          logs := w.logs ++ [{ level := .info, key := "currency",
                               value := .str (currentCurrency env r), msg := "home" }]
          resp := w.resp } := by
  have hloop := convertLoop_fail env r P 0
    (List.replicate P.length { Item := none, Price := none })
    { calls := w.calls ++ [.getSupportedCurrencies, .listProducts]
      logs := w.logs ++ [{ level := .info, key := "currency",
                           value := .str (currentCurrency env r), msg := "home" }]
      resp := w.resp } oks e more hconv
  simp only [homeHandler, getCurrencies, getProducts, World.logCall, World.rpc, hS, hP,
    List.append_assoc, List.singleton_append] at hloop ⊢
  rw [hloop]

theorem homeHandler_success (env : Env) (r : Request) (w : World) (S : List String)
    (P : List (Option Product)) (prices : List (Option Money))
    (hS : env.getSupportedCurrencies w.calls = .ok S)
    (hP : env.listProducts (w.calls ++ [.getSupportedCurrencies]) = .ok P)
    (hconv : convResults env (currentCurrency env r)
      (w.calls ++ [.getSupportedCurrencies, .listProducts]) P = prices.map Except.ok) :
    homeHandler env r w =
      match env.writeErr (w.resp ++ [.headerSet "Content-Type" "application/json"]) with
      | some err =>
        renderHTTPError env (errorsWrap env 92 err "could not render data")
          StatusInternalServerError
          { calls := w.calls ++ [.getSupportedCurrencies, .listProducts] ++
              P.map (convCall (currentCurrency env r))
            logs := w.logs ++ [{ level := .info, key := "currency",
                                 value := .str (currentCurrency env r), msg := "home" }]
            resp := w.resp ++ [.headerSet "Content-Type" "application/json",
              .write (homeData env
                (S.filter (fun c => decide (c ∈ env.whitelistedCurrencies)))
                (List.zipWith ProductView.mk P prices))] }
      | none =>
          { calls := w.calls ++ [.getSupportedCurrencies, .listProducts] ++
              P.map (convCall (currentCurrency env r))
            logs := w.logs ++ [{ level := .info, key := "currency",
                                 value := .str (currentCurrency env r), msg := "home" }]
            resp := w.resp ++ [.headerSet "Content-Type" "application/json",
              .write (homeData env
                (S.filter (fun c => decide (c ∈ env.whitelistedCurrencies)))
                (List.zipWith ProductView.mk P prices))] } := by
  have hloop := convertLoop_ok env r P []
    { calls := w.calls ++ [.getSupportedCurrencies, .listProducts]
      logs := w.logs ++ [{ level := .info, key := "currency",
                           value := .str (currentCurrency env r), msg := "home" }]
      resp := w.resp } prices hconv
  simp only [List.length_nil, List.nil_append] at hloop
  simp only [homeHandler, getCurrencies, getProducts, World.logCall, World.rpc, hS, hP,
    List.append_assoc, List.singleton_append, foldl_keep_eq_filter, List.nil_append] at hloop ⊢
  rw [hloop]
  simp only [jsonEncode, World.respCall, List.append_assoc, List.singleton_append]
  cases env.writeErr (w.resp ++ [.headerSet "Content-Type" "application/json"]) <;> rfl

theorem plusV_withStack_ne_empty (cause : GoError) (msg stack : String) :
    plusV (.withStack cause msg stack) ≠ "" := by
  intro h
  have hlen := congrArg String.length h
  simp only [plusV, String.length_append] at hlen
  have hnl : "\n".length = 1 := by decide
  have hzero : "".length = 0 := by decide
  omega

theorem committedFrom_append (ops more : List WriterOp) :
    ∀ h, committedFrom h ops = none →
      committedFrom h (ops ++ more) =
        committedFrom (ops.foldl (fun h op =>
          match op with
          | .headerSet key value => setHeader h key value
          | _ => h) h) more := by
  induction ops with
  | nil => intro h _; rfl
  | cons op rest ih =>
    intro h hnone
    cases op with
    | writeHeader code =>
      by_cases hcode : validStatusCode code = true
      · simp [committedFrom, hcode] at hnone
      · simp only [committedFrom, hcode, Bool.false_eq_true, if_false] at hnone
        simp only [List.cons_append, committedFrom, hcode, Bool.false_eq_true, if_false,
          List.foldl_cons]
        exact ih _ hnone
    | write body => simp [committedFrom] at hnone
    | headerSet key value =>
      simp only [committedFrom] at hnone
      simp only [List.cons_append, committedFrom, List.foldl_cons]
      exact ih _ hnone

theorem committed_append (ops more : List WriterOp) (hnone : committed ops = none) :
    committed (ops ++ more) = committedFrom (headerMap ops) more :=
  committedFrom_append ops more [] hnone

theorem lookup_setHeader (h : List (String × String)) (key value : String) :
    (setHeader h key value).lookup key = some value := by
  simp [setHeader, List.lookup]

theorem zipWith_views (P : List (Option Product)) :
    ∀ prices : List (Option Money), P.length = prices.length →
      (List.zipWith ProductView.mk P prices).length = P.length ∧
      (List.zipWith ProductView.mk P prices).map ProductView.Item = P ∧
      (List.zipWith ProductView.mk P prices).map ProductView.Price = prices := by
  induction P with
  | nil =>
    intro prices h
    cases prices with
    | nil => simp
    | cons m rest => simp at h
  | cons p rest ih =>
    intro prices h
    cases prices with
    | nil => simp at h
    | cons m prices =>
      simp only [List.length_cons, Nat.add_right_cancel_iff] at h
      obtain ⟨h1, h2, h3⟩ := ih prices h
      simp [h1, h2, h3]

theorem okButLast_nil (env : Env) (t : List Call) : okButLast env t [] := by
  intro pre c post h
  simp at h

theorem okButLast_cons (env : Env) (t : List Call) (c : Call) (rest : List Call)
    (hc : rest ≠ [] → callFails env t c = false) (hrest : okButLast env (t ++ [c]) rest) :
    okButLast env t (c :: rest) := by
  intro pre d post h hpost
  cases pre with
  | nil =>
    simp only [List.nil_append, List.cons.injEq] at h
    obtain ⟨rfl, rfl⟩ := h
    simpa using hc hpost
  | cons x pre =>
    simp only [List.cons_append, List.cons.injEq] at h
    obtain ⟨rfl, h⟩ := h
    have := hrest pre d post h hpost
    simpa [List.append_assoc] using this

theorem convCallsUntilFailure_okButLast (env : Env) (cur : String) (L : List (Option Product)) :
    ∀ t, okButLast env t (convCallsUntilFailure env cur t L) := by
  induction L with
  | nil => intro t; exact okButLast_nil env t
  | cons p rest ih =>
    intro t
    rw [convCallsUntilFailure]
    cases h : env.convert t (GetPriceUsd p) cur with
    | error e =>
      exact okButLast_cons env t _ [] (fun hne => absurd rfl hne) (okButLast_nil env _)
    | ok m =>
      refine okButLast_cons env t _ _ (fun _ => ?_) (ih _)
      simp [callFails, convCall, h]

theorem convCallsUntilFailure_stops (env : Env) (cur : String) (L : List (Option Product)) :
    ∀ t, ∃ rest, L.map (convCall cur) = convCallsUntilFailure env cur t L ++ rest ∧
      (rest ≠ [] → ∃ pre c, convCallsUntilFailure env cur t L = pre ++ [c] ∧
        callFails env (t ++ pre) c = true) := by
  induction L with
  | nil =>
    intro t
    exact ⟨[], by simp [convCallsUntilFailure], fun h => absurd rfl h⟩
  | cons p rest ih =>
    intro t
    rw [convCallsUntilFailure]
    cases h : env.convert t (GetPriceUsd p) cur with
    | error e =>
      refine ⟨rest.map (convCall cur), by simp, fun _ => ⟨[], convCall cur p, by simp, ?_⟩⟩
      simp [callFails, convCall, h]
    | ok m =>
      obtain ⟨more, h1, h2⟩ := ih (t ++ [convCall cur p])
      refine ⟨more, by simp [h1], fun hne => ?_⟩
      obtain ⟨pre, c, h3, h4⟩ := h2 hne
      refine ⟨convCall cur p :: pre, c, by simp [h3], ?_⟩
      simpa [List.append_assoc] using h4

theorem homeHandler_calls (env : Env) (r : Request) (w : World) :
    (homeHandler env r w).calls =
      w.calls ++ sequentialTrace env (currentCurrency env r) w.calls := by
  cases hS : env.getSupportedCurrencies w.calls with
  | error e =>
    rw [homeHandler_currencies_fail env r w e hS, renderHTTPError_eq_500]
    simp [sequentialTrace, hS]
  | ok S =>
    cases hP : env.listProducts (w.calls ++ [.getSupportedCurrencies]) with
    | error e =>
      rw [homeHandler_products_fail env r w S e hS hP, renderHTTPError_eq_500]
      simp [sequentialTrace, hS, hP]
    | ok P =>
      have hloop := convertLoop_calls env r P 0
        (List.replicate P.length { Item := none, Price := none })
        { calls := w.calls ++ [.getSupportedCurrencies, .listProducts]
          logs := w.logs ++ [{ level := .info, key := "currency",
                               value := .str (currentCurrency env r), msg := "home" }]
          resp := w.resp }
      simp only [homeHandler, getCurrencies, getProducts, World.logCall, World.rpc, hS, hP,
        sequentialTrace, List.append_assoc, List.singleton_append] at hloop ⊢
      generalize convertLoop env r P 0 (List.replicate P.length { Item := none, Price := none })
        { calls := w.calls ++ [.getSupportedCurrencies, .listProducts]
          logs := w.logs ++ [{ level := .info, key := "currency",
                               value := .str (currentCurrency env r), msg := "home" }]
          resp := w.resp } = res at hloop ⊢
      obtain ⟨o, w2⟩ := res
      simp only at hloop
      cases o with
      | none => simpa using hloop
      | some ps =>
        simp only [jsonEncode, World.respCall]
        cases env.writeErr (w2.resp ++ [.headerSet "Content-Type" "application/json"]) with
        | none => simpa using hloop
        | some err => simpa [renderHTTPError_eq_500] using hloop

theorem error_response_shape (env : Env) (w w1 : World) (cause : GoError) (msg stack : String)
    (hresp : w1.resp = w.resp) :
    ∃ err ops,
      (renderHTTPError env (.withStack cause msg stack) StatusInternalServerError w1).resp =
        w.resp ++ ops ∧
      ops = [.writeHeader 500,
             .headerSet "Content-Type" "application/json",
             .write [("error", .str (env.statusText 500)), ("message", .str (plusV err))]] ∧
      plusV err ≠ "" ∧
      writtenBodies ops =
        [[("error", .str (env.statusText 500)), ("message", .str (plusV err))]] ∧
      emittedViews ops = [] ∧
      (committed w.resp = none →
        committed (renderHTTPError env (.withStack cause msg stack)
          StatusInternalServerError w1).resp = some (500, headerMap w.resp)) := by
  refine ⟨.withStack cause msg stack, _, ?_, rfl, plusV_withStack_ne_empty cause msg stack,
    rfl, rfl, ?_⟩
  · rw [renderHTTPError_eq_500, hresp]
    rfl
  · intro hnone
    rw [renderHTTPError_eq_500, hresp]
    simp only
    rw [committed_append _ _ hnone]
    rfl

/-! ## Claims -/

/-- C1: when the currency backend returns the sequence `S`, `getCurrencies` returns, with no
error, exactly the elements of `S` that are keys of the allowlist: in their original order,
every occurrence of an allowlisted code kept, no code outside the allowlist, and the empty
sequence (not an error) when `S` has no allowlisted element. -/
theorem getCurrencies_allowlisted (env : Env) (w : World) (S : List String)
    (hS : env.getSupportedCurrencies w.calls = .ok S) :
    ∃ out, (getCurrencies env w).1 = .ok out ∧
      out = S.filter (fun c => decide (c ∈ env.whitelistedCurrencies)) ∧
      out.Sublist S ∧
      (∀ c, c ∈ env.whitelistedCurrencies → out.count c = S.count c) ∧
      (∀ c, c ∈ out → c ∈ env.whitelistedCurrencies) ∧
      ((∀ c, c ∈ S → c ∉ env.whitelistedCurrencies) → out = []) := by
  refine ⟨S.filter (fun c => decide (c ∈ env.whitelistedCurrencies)), ?_, rfl,
    List.filter_sublist S, ?_, ?_, ?_⟩
  · simp [getCurrencies, hS, foldl_keep_eq_filter]
  · intro c hc
    rw [List.count_filter]
    simpa using hc
  · intro c hc
    simpa using (List.mem_filter.mp hc).2
  · intro h
    rw [List.filter_eq_nil_iff]
    intro c hc
    simpa using h c hc

/-- Witness of C1: the sample backend reports EUR, XXX, USD, EUR and the result is EUR, USD,
EUR. -/
theorem getCurrencies_allowlisted_witness :
    okEnv.getSupportedCurrencies World.empty.calls = .ok ["EUR", "XXX", "USD", "EUR"] ∧
    ∃ out, (getCurrencies okEnv World.empty).1 = .ok out ∧
      out = ["EUR", "XXX", "USD", "EUR"].filter
        (fun c => decide (c ∈ okEnv.whitelistedCurrencies)) ∧
      out.Sublist ["EUR", "XXX", "USD", "EUR"] ∧
      (∀ c, c ∈ okEnv.whitelistedCurrencies →
        out.count c = ["EUR", "XXX", "USD", "EUR"].count c) ∧
      (∀ c, c ∈ out → c ∈ okEnv.whitelistedCurrencies) ∧
      ((∀ c, c ∈ ["EUR", "XXX", "USD", "EUR"] → c ∉ okEnv.whitelistedCurrencies) → out = []) :=
  ⟨rfl, getCurrencies_allowlisted okEnv World.empty ["EUR", "XXX", "USD", "EUR"] rfl⟩

/-- C5: with the fast-path flag enabled and the code of `m` equal to `c`, `convertCurrency`
returns `m` with no error and issues no backend call; with the flag disabled, the value the
program is built with, it issues exactly one `Convert` call with `m` and `c`, also when the
code of `m` is already `c`, and returns the answer of the backend unchanged. -/
theorem convertCurrency_fast_path (env : Env) (m : Option Money) (c : String) (w : World) :
    (GetCurrencyCode m = c → convertCurrency env true m c w = (.ok m, w)) ∧
    convertCurrency env false m c w =
      (env.convert w.calls m c,
       { calls := w.calls ++ [.convert m c], logs := w.logs, resp := w.resp }) ∧
    avoidNoopCurrencyConversionRPC = false := by
  refine ⟨?_, ?_, rfl⟩
  · intro h
    simp [convertCurrency, h]
  · simp [convertCurrency, World.rpc]

/-- Witness of C5: a USD amount converted into USD. -/
theorem convertCurrency_fast_path_witness :
    GetCurrencyCode lamp.priceUsd = "USD" ∧
    convertCurrency okEnv true lamp.priceUsd "USD" World.empty = (.ok lamp.priceUsd, World.empty) ∧
    convertCurrency okEnv false lamp.priceUsd "USD" World.empty =
      (.ok (some fixedEur),
       { calls := [.convert lamp.priceUsd "USD"], logs := [], resp := [] }) :=
  ⟨rfl, (convertCurrency_fast_path okEnv lamp.priceUsd "USD" World.empty).1 rfl,
    (convertCurrency_fast_path okEnv lamp.priceUsd "USD" World.empty).2.1⟩

/-- C6, counterexample: against a backend whose conversion service is unavailable, a USD
amount converted into USD comes back unchanged with the flag enabled and as the error of
the backend with the flag disabled. -/
theorem convertCurrency_flag_visible :
    (convertCurrency noConversionEnv true lamp.priceUsd "USD" World.empty).1 =
      .ok lamp.priceUsd ∧
    (convertCurrency noConversionEnv false lamp.priceUsd "USD" World.empty).1 =
      .error (.external "currency service unavailable") ∧
    (convertCurrency noConversionEnv true lamp.priceUsd "USD" World.empty).1 ≠
      (convertCurrency noConversionEnv false lamp.priceUsd "USD" World.empty).1 := by
  refine ⟨rfl, rfl, ?_⟩
  intro h
  have h1 : (Except.ok lamp.priceUsd : Except GoError (Option Money)) =
      .error (.external "currency service unavailable") := h
  cases h1

/-- C6, amended: when the backend, asked to convert `m` into the code `m` already has,
answers with `m` itself and no error, `convertCurrency` returns the same result with the
fast-path flag enabled as with the flag disabled. -/
theorem convertCurrency_flag_invisible (env : Env) (m : Option Money) (c : String) (w : World)
    (hnoop : GetCurrencyCode m = c → env.convert w.calls m c = .ok m) :
    (convertCurrency env true m c w).1 = (convertCurrency env false m c w).1 := by
  by_cases h : GetCurrencyCode m = c
  · simp [convertCurrency, h, hnoop h]
  · simp [convertCurrency, h]

/-- Witness of the amended C6, on a backend that returns a same-code Money unchanged. -/
theorem convertCurrency_flag_invisible_witness :
    (GetCurrencyCode lamp.priceUsd = "USD" →
      sameCodeEnv.convert World.empty.calls lamp.priceUsd "USD" = .ok lamp.priceUsd) ∧
    (convertCurrency sameCodeEnv true lamp.priceUsd "USD" World.empty).1 =
      (convertCurrency sameCodeEnv false lamp.priceUsd "USD" World.empty).1 :=
  ⟨fun _ => rfl,
   convertCurrency_flag_invisible sameCodeEnv lamp.priceUsd "USD" World.empty (fun _ => rfl)⟩

/-- C7: for a Money with non-negative units and `0 ≤ nanos < 10^9`, `renderMoney` is the
symbol of the currency code, the decimal form of the units, a dot, and `nanos / 10,000,000`
as exactly two decimal digits; the symbol is "$" for USD and CAD, "¥" for JPY, "€" for EUR,
"₺" for TRY, "£" for GBP and "$" for every other code. -/
theorem renderMoney_two_decimals (m : Money) (hu : 0 ≤ m.units) (hn : 0 ≤ m.nanos)
    (hlt : m.nanos < 1000000000) :
    renderMoney m =
      renderCurrencyLogo m.currencyCode ++ Nat.repr m.units.toNat ++ "." ++
        String.mk [digitChar (m.nanos.toNat / 10000000 / 10),
                   digitChar (m.nanos.toNat / 10000000 % 10)] ∧
    renderCurrencyLogo "USD" = "$" ∧ renderCurrencyLogo "CAD" = "$" ∧
    renderCurrencyLogo "JPY" = "¥" ∧ renderCurrencyLogo "EUR" = "€" ∧
    renderCurrencyLogo "TRY" = "₺" ∧ renderCurrencyLogo "GBP" = "£" ∧
    (∀ code, code ∉ ["USD", "CAD", "JPY", "EUR", "TRY", "GBP"] →
      renderCurrencyLogo code = "$") := by
  refine ⟨?_, by decide, by decide, by decide, by decide, by decide, by decide, ?_⟩
  · obtain ⟨code, units, nanos⟩ := m
    simp only at hu hn hlt ⊢
    obtain ⟨u, rfl⟩ := Int.eq_ofNat_of_zero_le hu
    obtain ⟨n, rfl⟩ := Int.eq_ofNat_of_zero_le hn
    have hq : n / 10000000 < 100 := by omega
    have hdiv : (n : Int).tdiv 10000000 = ((n / 10000000 : Nat) : Int) := by
      rw [Int.ofNat_tdiv]
      rfl
    have hfmt := fmt02d_two_digits ⟨n / 10000000, hq⟩
    simp only at hfmt
    have hnot : ¬ ((u : Int) < 0) := by omega
    simp only [renderMoney, fmtD, hdiv, hfmt, hnot, if_false, Int.natAbs_ofNat, Int.toNat_ofNat]
  · intro code hcode
    simp only [List.mem_cons, List.mem_singleton, List.mem_nil_iff, or_false, not_or] at hcode
    obtain ⟨h1, h2, h3, h4, h5, h6⟩ := hcode
    have e1 : (code == "USD") = false := beq_eq_false_iff_ne.mpr h1
    have e2 : (code == "CAD") = false := beq_eq_false_iff_ne.mpr h2
    have e3 : (code == "JPY") = false := beq_eq_false_iff_ne.mpr h3
    have e4 : (code == "EUR") = false := beq_eq_false_iff_ne.mpr h4
    have e5 : (code == "TRY") = false := beq_eq_false_iff_ne.mpr h5
    have e6 : (code == "GBP") = false := beq_eq_false_iff_ne.mpr h6
    simp only [renderCurrencyLogo, List.lookup, e1, e2, e3, e4, e5, e6]

/-- Witness of C7: the three amounts of the specification. -/
theorem renderMoney_two_decimals_witness :
    renderMoney { currencyCode := "USD", units := 19, nanos := 990000000 } = "$19.99" ∧
    renderMoney { currencyCode := "JPY", units := 500, nanos := 0 } = "¥500.00" ∧
    renderMoney { currencyCode := "XXX", units := 3, nanos := 59999999 } = "$3.05" ∧
    renderCurrencyLogo "XXX" = "$" :=
  ⟨(renderMoney_two_decimals { currencyCode := "USD", units := 19, nanos := 990000000 }
      (by decide) (by decide) (by decide)).1.trans (by decide),
   (renderMoney_two_decimals { currencyCode := "JPY", units := 500, nanos := 0 }
      (by decide) (by decide) (by decide)).1.trans (by decide),
   (renderMoney_two_decimals { currencyCode := "XXX", units := 3, nanos := 59999999 }
      (by decide) (by decide) (by decide)).1.trans (by decide),
   (renderMoney_two_decimals { currencyCode := "XXX", units := 3, nanos := 59999999 }
      (by decide) (by decide) (by decide)).2.2.2.2.2.2.2 "XXX" (by decide)⟩

/-- C8: for every error and every status code, a code being an integer from 100 to 999,
the range `WriteHeader` accepts, `renderHTTPError` issues no backend call, logs exactly one
entry, at error severity, with the error under the field "error", and on the response
writer writes the status code, sets the content type and writes one body, the JSON object
with the reason phrase of the code under "error" and the detailed text of the error under
"message"; that text contains the message of every layer of the cause chain. -/
theorem renderHTTPError_effects (env : Env) (err : GoError) (code : Int) (w : World)
    (hlo : 100 ≤ code) (hhi : code ≤ 999) :
    renderHTTPError env err code w =
      { calls := w.calls
        logs := w.logs ++ [{ level := .error, key := "error", value := .err err,
                             msg := "request error" }]
        resp := w.resp ++ [.writeHeader code,
                           .headerSet "Content-Type" "application/json",
                           .write [("error", .str (env.statusText code)),
                                   ("message", .str (plusV err))]] } ∧
    (∀ s, s ∈ causeChain err → Contains (plusV err) s) := by
  refine ⟨?_, contains_causeChain err⟩
  have hcode : validStatusCode code = true := by
    simp [validStatusCode, hlo, hhi]
  simp [renderHTTPError, jsonEncode, World.logCall, World.respCall, ErrorResponse.toJson, hcode]

/-- Witness of C8: a wrapped backend error rendered with status 500. -/
theorem renderHTTPError_effects_witness :
    (100 : Int) ≤ 500 ∧ (500 : Int) ≤ 999 ∧
    renderHTTPError okEnv (.withStack (.external "rpc down") "could not retrieve products" "")
        500 World.empty =
      { calls := []
        logs := [{ level := .error, key := "error",
                   value := .err (.withStack (.external "rpc down")
                     "could not retrieve products" ""),
                   msg := "request error" }]
        resp := [.writeHeader 500,
                 .headerSet "Content-Type" "application/json",
                 .write [("error", .str "Internal Server Error"),
                         ("message", .str "rpc down\ncould not retrieve products")]] } ∧
    Contains (plusV (.withStack (.external "rpc down") "could not retrieve products" ""))
      "rpc down" :=
  ⟨by decide, by decide,
   (renderHTTPError_effects okEnv
      (.withStack (.external "rpc down") "could not retrieve products" "") 500
      World.empty (by decide) (by decide)).1.trans (by decide),
   (renderHTTPError_effects okEnv
      (.withStack (.external "rpc down") "could not retrieve products" "") 500
      World.empty (by decide) (by decide)).2 "rpc down" (by decide)⟩

/-- C2: when the currency-list fetch, the catalog fetch and every conversion succeed,
`homeHandler` writes a body whose product views are as many as the catalog products, the
`i`-th view holding the `i`-th catalog product and the Money the conversion backend returned
for the price of that product and the display currency of the request. -/
theorem homeHandler_views_in_catalog_order (env : Env) (r : Request) (w : World)
    (S : List String) (P : List (Option Product)) (prices : List (Option Money))
    (hS : env.getSupportedCurrencies w.calls = .ok S)
    (hP : env.listProducts (w.calls ++ [.getSupportedCurrencies]) = .ok P)
    (hconv : convResults env (currentCurrency env r)
      (w.calls ++ [.getSupportedCurrencies, .listProducts]) P = prices.map Except.ok) :
    ∃ views tail,
      (homeHandler env r w).resp =
        w.resp ++ [.headerSet "Content-Type" "application/json",
          .write (homeData env (S.filter (fun c => decide (c ∈ env.whitelistedCurrencies)))
            views)] ++ tail ∧
      emittedViews tail = [] ∧
      views.length = P.length ∧
      views.map ProductView.Item = P ∧
      views.map ProductView.Price = prices ∧
      (∀ i p, P[i]? = some p → ∃ price,
        views[i]? = some { Item := p, Price := price } ∧
        env.convert (w.calls ++ [.getSupportedCurrencies, .listProducts] ++
            (P.take i).map (convCall (currentCurrency env r)))
          (GetPriceUsd p) (currentCurrency env r) = .ok price) := by
  have hlen : P.length = prices.length := by
    have h := congrArg List.length hconv
    rw [convResults_length, List.length_map] at h
    exact h
  obtain ⟨hv1, hv2, hv3⟩ := zipWith_views P prices hlen
  have hrun := homeHandler_success env r w S P prices hS hP hconv
  refine ⟨List.zipWith ProductView.mk P prices,
    match env.writeErr (w.resp ++ [.headerSet "Content-Type" "application/json"]) with
    | some err =>
      [.writeHeader StatusInternalServerError,
       .headerSet "Content-Type" "application/json",
       .write [("error", .str (env.statusText StatusInternalServerError)),
               ("message", .str (plusV (errorsWrap env 92 err "could not render data")))]]
    | none => [], ?_, ?_, hv1, hv2, hv3, ?_⟩
  · rw [hrun]
    cases env.writeErr (w.resp ++ [.headerSet "Content-Type" "application/json"]) with
    | none => simp
    | some err => simp [renderHTTPError_eq_500]
  · cases env.writeErr (w.resp ++ [.headerSet "Content-Type" "application/json"]) with
    | none => rfl
    | some err => rfl
  · intro i p hp
    have hres := convResults_getElem env (currentCurrency env r) P
      (w.calls ++ [.getSupportedCurrencies, .listProducts]) i p hp
    rw [hconv, List.getElem?_map] at hres
    cases hprice : prices[i]? with
    | none => simp [hprice] at hres
    | some price =>
      simp only [hprice, Option.map_some', Option.some.injEq] at hres
      refine ⟨price, ?_, hres.symm⟩
      simp [List.getElem?_zipWith, hp, hprice]

/-- Witness of C2: two USD products, display currency EUR, a converter returning a fixed
EUR amount: two views, both priced in EUR, in catalog order. -/
theorem homeHandler_views_in_catalog_order_witness :
    currentCurrency okEnv eurRequest = "EUR" ∧
    (homeHandler okEnv eurRequest World.empty).resp =
      [.headerSet "Content-Type" "application/json",
       .write [("banner_color", .str ""),
               ("currencies", .strs ["EUR", "USD", "EUR"]),
               ("products", .views [{ Item := some mug, Price := some fixedEur },
                                    { Item := some lamp, Price := some fixedEur }]),
               ("show_currency", .bool true)]] ∧
    ∃ views tail,
      (homeHandler okEnv eurRequest World.empty).resp =
        World.empty.resp ++ [.headerSet "Content-Type" "application/json",
          .write (homeData okEnv
            (["EUR", "XXX", "USD", "EUR"].filter
              (fun c => decide (c ∈ okEnv.whitelistedCurrencies))) views)] ++ tail ∧
      emittedViews tail = [] ∧
      views.length = [some mug, some lamp].length ∧
      views.map ProductView.Item = [some mug, some lamp] ∧
      views.map ProductView.Price = [some fixedEur, some fixedEur] ∧
      (∀ i p, [some mug, some lamp][i]? = some p → ∃ price,
        views[i]? = some { Item := p, Price := price } ∧
        okEnv.convert (World.empty.calls ++ [.getSupportedCurrencies, .listProducts] ++
            ([some mug, some lamp].take i).map (convCall (currentCurrency okEnv eurRequest)))
          (GetPriceUsd p) (currentCurrency okEnv eurRequest) = .ok price) :=
  ⟨by decide, by decide,
   homeHandler_views_in_catalog_order okEnv eurRequest World.empty
     ["EUR", "XXX", "USD", "EUR"] [some mug, some lamp] [some fixedEur, some fixedEur]
     rfl rfl rfl⟩

/-- C3: if the currency-list fetch fails, or the catalog fetch fails, or the conversion of
at least one product fails, `homeHandler` makes on the response writer exactly the calls of
one error response: status 500, the content type, and one body, the error object, whose
message is not empty; no product view is written. -/
theorem homeHandler_fail_fast (env : Env) (r : Request) (w : World)
    (hfail : (∃ e, env.getSupportedCurrencies w.calls = .error e) ∨
      (∃ e, env.listProducts (w.calls ++ [.getSupportedCurrencies]) = .error e) ∨
      (∃ P e, env.listProducts (w.calls ++ [.getSupportedCurrencies]) = .ok P ∧
        Except.error e ∈ convResults env (currentCurrency env r)
          (w.calls ++ [.getSupportedCurrencies, .listProducts]) P)) :
    ∃ err ops,
      (homeHandler env r w).resp = w.resp ++ ops ∧
      ops = [.writeHeader 500,
             .headerSet "Content-Type" "application/json",
             .write [("error", .str (env.statusText 500)), ("message", .str (plusV err))]] ∧
      plusV err ≠ "" ∧
      writtenBodies ops =
        [[("error", .str (env.statusText 500)), ("message", .str (plusV err))]] ∧
      emittedViews ops = [] ∧
      (committed w.resp = none →
        committed (homeHandler env r w).resp = some (500, headerMap w.resp)) := by
  cases hS : env.getSupportedCurrencies w.calls with
  | error e =>
    rw [homeHandler_currencies_fail env r w e hS]
    exact error_response_shape env w _ e _ _ rfl
  | ok S =>
    cases hP : env.listProducts (w.calls ++ [.getSupportedCurrencies]) with
    | error e =>
      rw [homeHandler_products_fail env r w S e hS hP]
      exact error_response_shape env w _ e _ _ rfl
    | ok P =>
      rcases results_split (convResults env (currentCurrency env r)
        (w.calls ++ [.getSupportedCurrencies, .listProducts]) P) with
        ⟨prices, hok⟩ | ⟨oks, e, more, hsplit⟩
      · exfalso
        rcases hfail with ⟨e, he⟩ | ⟨e, he⟩ | ⟨Q, e, hQ, he⟩
        · rw [hS] at he
          cases he
        · rw [hP] at he
          cases he
        · rw [hP] at hQ
          cases hQ
          rw [hok] at he
          simp at he
      · rw [homeHandler_conversion_fail env r w S P oks e more hS hP hsplit]
        exact error_response_shape env w _ e _ _ rfl

/-- Witness of C3: the currency-list call fails. -/
theorem homeHandler_fail_fast_witness :
    (∃ e, noCurrenciesEnv.getSupportedCurrencies World.empty.calls = .error e) ∧
    (homeHandler noCurrenciesEnv eurRequest World.empty).resp =
      [.writeHeader 500,
       .headerSet "Content-Type" "application/json",
       .write [("error", .str "Internal Server Error"),
               ("message", .str "currency service down\ncould not retrieve currencies")]] ∧
    ∃ err ops,
      (homeHandler noCurrenciesEnv eurRequest World.empty).resp = World.empty.resp ++ ops ∧
      ops = [.writeHeader 500,
             .headerSet "Content-Type" "application/json",
             .write [("error", .str (noCurrenciesEnv.statusText 500)),
                     ("message", .str (plusV err))]] ∧
      plusV err ≠ "" ∧
      writtenBodies ops =
        [[("error", .str (noCurrenciesEnv.statusText 500)), ("message", .str (plusV err))]] ∧
      emittedViews ops = [] ∧
      (committed World.empty.resp = none →
        committed (homeHandler noCurrenciesEnv eurRequest World.empty).resp =
          some (500, headerMap World.empty.resp)) :=
  ⟨⟨_, rfl⟩, by decide,
   homeHandler_fail_fast noCurrenciesEnv eurRequest World.empty (Or.inl ⟨_, rfl⟩)⟩

/-- C4: when both fetches succeed and the conversions of the first products succeed while
that of the next product fails with the error `e`, the error `homeHandler` logs and renders
is `e` wrapped under the message "failed to do currency conversion for product " followed
by the id of that product, and the message field of the body contains that text and the
text of `e`. -/
theorem homeHandler_names_failing_product (env : Env) (r : Request) (w : World)
    (S : List String) (P : List (Option Product)) (oks : List (Option Money)) (e : GoError)
    (more : List (Except GoError (Option Money)))
    (hS : env.getSupportedCurrencies w.calls = .ok S)
    (hP : env.listProducts (w.calls ++ [.getSupportedCurrencies]) = .ok P)
    (hconv : convResults env (currentCurrency env r)
      (w.calls ++ [.getSupportedCurrencies, .listProducts]) P =
        oks.map Except.ok ++ Except.error e :: more) :
    ∃ p rendered,
      P[oks.length]? = some p ∧
      env.convert (w.calls ++ [.getSupportedCurrencies, .listProducts] ++
          (P.take oks.length).map (convCall (currentCurrency env r)))
        (GetPriceUsd p) (currentCurrency env r) = .error e ∧
      (∀ i q, i < oks.length → P[i]? = some q →
        ∃ price, env.convert (w.calls ++ [.getSupportedCurrencies, .listProducts] ++
            (P.take i).map (convCall (currentCurrency env r)))
          (GetPriceUsd q) (currentCurrency env r) = .ok price) ∧
      rendered = GoError.withStack e
        ("failed to do currency conversion for product " ++ GetId p) (env.stackAt 72) ∧
      (homeHandler env r w).logs =
        w.logs ++ [{ level := .info, key := "currency",
                     value := .str (currentCurrency env r), msg := "home" },
                   { level := .error, key := "error", value := .err rendered,
                     msg := "request error" }] ∧
      (homeHandler env r w).resp =
        w.resp ++ [.writeHeader 500,
                   .headerSet "Content-Type" "application/json",
                   .write [("error", .str (env.statusText 500)),
                           ("message", .str (plusV rendered))]] ∧
      Contains (plusV rendered)
        ("failed to do currency conversion for product " ++ GetId p) ∧
      Contains (plusV rendered) (plusV e) := by
  have hlen : oks.length < P.length := by
    have h := congrArg List.length hconv
    rw [convResults_length] at h
    simp at h
    omega
  have hp : P[oks.length]? = some (P.getD oks.length none) := by
    simp [List.getD, List.getElem?_eq_getElem hlen]
  refine ⟨P.getD oks.length none, _, hp, ?_, ?_, rfl, ?_, ?_, ?_, ?_⟩
  · have hres := convResults_getElem env (currentCurrency env r) P
      (w.calls ++ [.getSupportedCurrencies, .listProducts]) oks.length _ hp
    have hk : (List.map Except.ok oks ++ Except.error e :: more)[oks.length]? =
        some (Except.error e) := by
      rw [List.getElem?_append_right (by simp)]
      simp
    rw [hconv, hk] at hres
    exact (Option.some.inj hres).symm
  · intro i q hi hq
    have hres := convResults_getElem env (currentCurrency env r) P
      (w.calls ++ [.getSupportedCurrencies, .listProducts]) i q hq
    rw [hconv, List.getElem?_append_left (by simpa using hi), List.getElem?_map] at hres
    cases hprice : oks[i]? with
    | none => simp [hprice] at hres
    | some price =>
      simp only [hprice, Option.map_some', Option.some.injEq] at hres
      exact ⟨price, hres.symm⟩
  · rw [homeHandler_conversion_fail env r w S P oks e more hS hP hconv,
      renderHTTPError_eq_500]
    simp [errorsWrap]
  · rw [homeHandler_conversion_fail env r w S P oks e more hS hP hconv,
      renderHTTPError_eq_500]
    simp [errorsWrap, StatusInternalServerError]
  · exact ⟨plusV e ++ "\n", env.stackAt 72, by simp [plusV, String.append_assoc]⟩
  · exact ⟨"", "\n" ++ ("failed to do currency conversion for product " ++
      GetId (P.getD oks.length none)) ++ env.stackAt 72, by simp [plusV, String.append_assoc]⟩

/-- Witness of C4: the conversion of the mug succeeds and that of the lamp fails; the error
names the lamp. -/
theorem homeHandler_names_failing_product_witness :
    badLampEnv.getSupportedCurrencies World.empty.calls = .ok ["EUR", "XXX", "USD", "EUR"] ∧
    badLampEnv.listProducts (World.empty.calls ++ [.getSupportedCurrencies]) =
      .ok [some mug, some lamp] ∧
    convResults badLampEnv (currentCurrency badLampEnv eurRequest)
      (World.empty.calls ++ [.getSupportedCurrencies, .listProducts]) [some mug, some lamp] =
        [some fixedEur].map Except.ok ++ Except.error (.external "unsupported currency") :: [] ∧
    (homeHandler badLampEnv eurRequest World.empty).resp =
      [.writeHeader 500,
       .headerSet "Content-Type" "application/json",
       .write [("error", .str "Internal Server Error"),
               ("message", .str ("unsupported currency\n" ++
                  "failed to do currency conversion for product LAMP2"))]] ∧
    ∃ p rendered,
      [some mug, some lamp][[some fixedEur].length]? = some p ∧
      badLampEnv.convert (World.empty.calls ++ [.getSupportedCurrencies, .listProducts] ++
          ([some mug, some lamp].take [some fixedEur].length).map
            (convCall (currentCurrency badLampEnv eurRequest)))
        (GetPriceUsd p) (currentCurrency badLampEnv eurRequest) =
          .error (.external "unsupported currency") ∧
      (∀ i q, i < [some fixedEur].length → [some mug, some lamp][i]? = some q →
        ∃ price, badLampEnv.convert
          (World.empty.calls ++ [.getSupportedCurrencies, .listProducts] ++
            ([some mug, some lamp].take i).map
              (convCall (currentCurrency badLampEnv eurRequest)))
          (GetPriceUsd q) (currentCurrency badLampEnv eurRequest) = .ok price) ∧
      rendered = GoError.withStack (.external "unsupported currency")
        ("failed to do currency conversion for product " ++ GetId p)
        (badLampEnv.stackAt 72) ∧
      (homeHandler badLampEnv eurRequest World.empty).logs =
        World.empty.logs ++
          [{ level := .info, key := "currency",
             value := .str (currentCurrency badLampEnv eurRequest), msg := "home" },
           { level := .error, key := "error", value := .err rendered,
             msg := "request error" }] ∧
      (homeHandler badLampEnv eurRequest World.empty).resp =
        World.empty.resp ++ [.writeHeader 500,
                   .headerSet "Content-Type" "application/json",
                   .write [("error", .str (badLampEnv.statusText 500)),
                           ("message", .str (plusV rendered))]] ∧
      Contains (plusV rendered)
        ("failed to do currency conversion for product " ++ GetId p) ∧
      Contains (plusV rendered) (plusV (.external "unsupported currency")) :=
  ⟨rfl, rfl, rfl, by decide,
   homeHandler_names_failing_product badLampEnv eurRequest World.empty
     ["EUR", "XXX", "USD", "EUR"] [some mug, some lamp] [some fixedEur]
     (.external "unsupported currency") [] rfl rfl rfl⟩

/-- C9: the backend calls of `homeHandler` are the sequential fail-fast trace: the
currency-list call, then the catalog call, then one conversion call per product in catalog
order, cut after the first call that fails.  The trace is an initial part of the whole
chain, it is cut short only after a failed call, and every call that has a successor in it
succeeded: no call follows a failed call and none is repeated. -/
theorem homeHandler_sequential_trace (env : Env) (r : Request) (w : World) :
    (homeHandler env r w).calls =
      w.calls ++ sequentialTrace env (currentCurrency env r) w.calls ∧
    (∃ rest, fullChain env (currentCurrency env r) w.calls =
        sequentialTrace env (currentCurrency env r) w.calls ++ rest ∧
      (rest ≠ [] → ∃ pre c,
        sequentialTrace env (currentCurrency env r) w.calls = pre ++ [c] ∧
        callFails env (w.calls ++ pre) c = true)) ∧
    (∀ pre c post,
      sequentialTrace env (currentCurrency env r) w.calls = pre ++ c :: post → post ≠ [] →
        callFails env (w.calls ++ pre) c = false) := by
  refine ⟨homeHandler_calls env r w, ?_, ?_⟩
  · cases hS : env.getSupportedCurrencies w.calls with
    | error e =>
      cases hP : env.listProducts (w.calls ++ [.getSupportedCurrencies]) with
      | error e2 =>
        refine ⟨[.listProducts], by simp [fullChain, sequentialTrace, hS, hP], fun _ =>
          ⟨[], .getSupportedCurrencies, by simp [sequentialTrace, hS], ?_⟩⟩
        simp [callFails, hS]
      | ok P =>
        refine ⟨.listProducts :: P.map (convCall (currentCurrency env r)),
          by simp [fullChain, sequentialTrace, hS, hP], fun _ =>
          ⟨[], .getSupportedCurrencies, by simp [sequentialTrace, hS], ?_⟩⟩
        simp [callFails, hS]
    | ok S =>
      cases hP : env.listProducts (w.calls ++ [.getSupportedCurrencies]) with
      | error e =>
        exact ⟨[], by simp [fullChain, sequentialTrace, hS, hP], fun h => absurd rfl h⟩
      | ok P =>
        obtain ⟨rest, h1, h2⟩ := convCallsUntilFailure_stops env (currentCurrency env r) P
          (w.calls ++ [.getSupportedCurrencies, .listProducts])
        refine ⟨rest, by simp [fullChain, sequentialTrace, hS, hP, h1], fun hne => ?_⟩
        obtain ⟨pre, c, h3, h4⟩ := h2 hne
        refine ⟨.getSupportedCurrencies :: .listProducts :: pre, c,
          by simp [sequentialTrace, hS, hP, h3], ?_⟩
        simpa [List.append_assoc] using h4
  · have hok : okButLast env w.calls (sequentialTrace env (currentCurrency env r) w.calls) := by
      cases hS : env.getSupportedCurrencies w.calls with
      | error e =>
        simp only [sequentialTrace, hS]
        exact okButLast_cons env _ _ [] (fun h => absurd rfl h) (okButLast_nil env _)
      | ok S =>
        have hS2 : callFails env w.calls .getSupportedCurrencies = false := by
          simp [callFails, hS]
        cases hP : env.listProducts (w.calls ++ [.getSupportedCurrencies]) with
        | error e =>
          simp only [sequentialTrace, hS, hP]
          exact okButLast_cons env _ _ _ (fun _ => hS2)
            (okButLast_cons env _ _ [] (fun h => absurd rfl h) (okButLast_nil env _))
        | ok P =>
          have hP2 : callFails env (w.calls ++ [.getSupportedCurrencies]) .listProducts
              = false := by
            simp [callFails, hP]
          simp only [sequentialTrace, hS, hP, List.cons_append, List.nil_append]
          refine okButLast_cons env _ _ _ (fun _ => hS2)
            (okButLast_cons env _ _ _ (fun _ => hP2) ?_)
          have := convCallsUntilFailure_okButLast env (currentCurrency env r) P
            (w.calls ++ [.getSupportedCurrencies, .listProducts])
          simpa [List.append_assoc] using this
    exact hok

/-- Witness of C9: with the lamp, the second of three products, failing to convert, the
trace is the two fetches and two conversion calls, and stops there. -/
theorem homeHandler_sequential_trace_witness :
    (homeHandler threeProductsEnv eurRequest World.empty).calls =
      [.getSupportedCurrencies, .listProducts,
       .convert mug.priceUsd "EUR", .convert lamp.priceUsd "EUR"] ∧
    (homeHandler noCurrenciesEnv eurRequest World.empty).calls = [.getSupportedCurrencies] ∧
    (homeHandler okEnv eurRequest World.empty).calls =
      [.getSupportedCurrencies, .listProducts,
       .convert mug.priceUsd "EUR", .convert lamp.priceUsd "EUR"] ∧
    callFails badLampEnv ([] ++ [.getSupportedCurrencies, .listProducts])
      (.convert mug.priceUsd "EUR") = false :=
  ⟨(homeHandler_sequential_trace threeProductsEnv eurRequest World.empty).1.trans (by decide),
   (homeHandler_sequential_trace noCurrenciesEnv eurRequest World.empty).1.trans (by decide),
   (homeHandler_sequential_trace okEnv eurRequest World.empty).1.trans (by decide),
   (homeHandler_sequential_trace badLampEnv eurRequest World.empty).2.2
      [.getSupportedCurrencies, .listProducts] (.convert mug.priceUsd "EUR")
      [.convert lamp.priceUsd "EUR"] (by decide) (by decide)⟩

/-- C10: for every error and every status code, a code being an integer from 100 to 999,
the range `WriteHeader` accepts, `renderHTTPError` calls `WriteHeader(code)`, then sets the
content type, then writes the body; so the header committed when the status code is written
is the header map as it was on entry, without the entry `renderHTTPError` sets, which
reaches the header map only afterwards.  On the success path of `homeHandler` the content
type is set before anything is written, and is part of the committed header. -/
theorem renderHTTPError_header_after_status (env : Env) (r : Request) (err : GoError)
    (code : Int) (w : World) (hlo : 100 ≤ code) (hhi : code ≤ 999) :
    (renderHTTPError env err code w).resp =
      w.resp ++ [.writeHeader code,
                 .headerSet "Content-Type" "application/json",
                 .write [("error", .str (env.statusText code)),
                         ("message", .str (plusV err))]] ∧
    headerMap (w.resp ++ [.writeHeader code]) = headerMap w.resp ∧
    (headerMap (renderHTTPError env err code w).resp).lookup "Content-Type" =
      some "application/json" ∧
    (committed w.resp = none →
      committed (renderHTTPError env err code w).resp = some (code, headerMap w.resp)) ∧
    (committed w.resp = none → (headerMap w.resp).lookup "Content-Type" = none →
      ∃ h, committed (renderHTTPError env err code w).resp = some (code, h) ∧
        h.lookup "Content-Type" = none) ∧
    (∀ (S : List String) (P : List (Option Product)) (prices : List (Option Money)),
      env.getSupportedCurrencies w.calls = .ok S →
      env.listProducts (w.calls ++ [.getSupportedCurrencies]) = .ok P →
      convResults env (currentCurrency env r)
        (w.calls ++ [.getSupportedCurrencies, .listProducts]) P = prices.map Except.ok →
      ∃ body tail,
        (homeHandler env r w).resp =
          w.resp ++ .headerSet "Content-Type" "application/json" :: .write body :: tail ∧
        (committed w.resp = none →
          ∃ h, committed (homeHandler env r w).resp = some (200, h) ∧
            h.lookup "Content-Type" = some "application/json")) := by
  have hcode : validStatusCode code = true := validStatusCode_of_bounds code hlo hhi
  have hcommit : committed w.resp = none →
      committed (renderHTTPError env err code w).resp = some (code, headerMap w.resp) := by
    intro hnone
    rw [renderHTTPError_eq env err code w hcode]
    simp only
    rw [committed_append _ _ hnone]
    simp [committedFrom, hcode]
  refine ⟨by rw [renderHTTPError_eq env err code w hcode], ?_, ?_, hcommit, ?_, ?_⟩
  · simp [headerMap, List.foldl_append]
  · rw [renderHTTPError_eq env err code w hcode]
    simp only [headerMap, List.foldl_append, List.foldl_cons, List.foldl_nil]
    exact lookup_setHeader _ _ _
  · intro hnone hct
    exact ⟨headerMap w.resp, hcommit hnone, hct⟩
  · intro S P prices hS hP hconv
    have hrun := homeHandler_success env r w S P prices hS hP hconv
    cases hw : env.writeErr (w.resp ++ [.headerSet "Content-Type" "application/json"]) with
    | none =>
      simp only [hw] at hrun
      refine ⟨_, [], by rw [hrun], fun hnone => ?_⟩
      rw [hrun]
      simp only
      rw [committed_append _ _ hnone]
      exact ⟨_, rfl, lookup_setHeader _ _ _⟩
    | some e =>
      simp only [hw] at hrun
      refine ⟨homeData env (S.filter (fun c => decide (c ∈ env.whitelistedCurrencies)))
        (List.zipWith ProductView.mk P prices),
        [.writeHeader StatusInternalServerError,
         .headerSet "Content-Type" "application/json",
         .write [("error", .str (env.statusText StatusInternalServerError)),
                 ("message", .str (plusV (errorsWrap env 92 e "could not render data")))]],
        ?_, fun hnone => ?_⟩
      · rw [hrun, renderHTTPError_eq_500]
        simp
      · rw [hrun, renderHTTPError_eq_500]
        simp only [List.append_assoc]
        rw [committed_append _ _ hnone]
        exact ⟨_, rfl, lookup_setHeader _ _ _⟩

/-- Witness of C10: on a fresh response writer the error path commits status 500 with an
empty header, and the success path commits status 200 with the content type. -/
theorem renderHTTPError_header_after_status_witness :
    (100 : Int) ≤ 500 ∧ (500 : Int) ≤ 999 ∧
    committed (renderHTTPError okEnv (.external "boom") 500 World.empty).resp =
      some (500, []) ∧
    headerMap (renderHTTPError okEnv (.external "boom") 500 World.empty).resp =
      [("Content-Type", "application/json")] ∧
    committed (homeHandler okEnv eurRequest World.empty).resp =
      some (200, [("Content-Type", "application/json")]) ∧
    (∃ h, committed (renderHTTPError okEnv (.external "boom") 500 World.empty).resp =
        some (500, h) ∧ h.lookup "Content-Type" = none) ∧
    (∃ body tail,
      (homeHandler okEnv eurRequest World.empty).resp =
        World.empty.resp ++
          .headerSet "Content-Type" "application/json" :: .write body :: tail ∧
      (committed World.empty.resp = none →
        ∃ h, committed (homeHandler okEnv eurRequest World.empty).resp = some (200, h) ∧
          h.lookup "Content-Type" = some "application/json")) :=
  ⟨by decide, by decide, by decide, by decide, by decide,
   (renderHTTPError_header_after_status okEnv eurRequest (.external "boom") 500
      World.empty (by decide) (by decide)).2.2.2.2.1 rfl rfl,
   (renderHTTPError_header_after_status okEnv eurRequest (.external "boom") 500
      World.empty (by decide) (by decide)).2.2.2.2.2 ["EUR", "XXX", "USD", "EUR"]
      [some mug, some lamp] [some fixedEur, some fixedEur] rfl rfl rfl⟩

end Apigw
